import Mathlib

set_option linter.unusedVariables false
set_option maxRecDepth 8192

/-!
Shallow embedding of the go-vite topology gossip component (package
`topo`) together with the sibling `unconfirmed/model.BlockQueue`, plus
theorems checking the natural-language specification against the code.
Bytes are modelled as `Nat`, byte sequences as `List Nat`.
-/

/-! ## Wire codec

Modelled from the spec: the payload encoding produced by `proto.Marshal`
on the generated `protos.Topo` message (the generated protobuf code is
repository code that is not among the sources at hand).  The spec pins
the payload to a schema'd binary `encode(pivot: string, peers: ordered
sequence of string, observed_at: int64 unix-seconds)` whose decoder
rejects truncated or malformed input.  We realise it as an unambiguous
varint-based binary format. -/

/-- Base-128 little-endian varint encoding of a natural number; every
byte but the last carries a continuation bit.  The fuel argument only
makes the recursion structural: the value strictly dominates it. -/
def varintEncAux : Nat → Nat → List Nat
  | 0, _ => []
  | fuel + 1, n => if n < 128 then [n] else (n % 128 + 128) :: varintEncAux fuel (n / 128)

def varintEnc (n : Nat) : List Nat := varintEncAux (n + 1) n

/-- Varint decoder; `none` on truncated input. -/
def varintDec : List Nat → Option (Nat × List Nat)
  | [] => none
  | b :: rest =>
    if b < 128 then some (b, rest)
    else
      match varintDec rest with
      | none => none
      | some (n, r) => some (n * 128 + (b - 128), r)

/-- A string's characters, each as a varint code point. -/
def charsEnc (cs : List Char) : List Nat := (cs.map (fun c => varintEnc c.toNat)).flatten

/-- Decode exactly `k` characters. -/
def charsDec : Nat → List Nat → Option (List Char × List Nat)
  | 0, bs => some ([], bs)
  | k + 1, bs =>
    match varintDec bs with
    | none => none
    | some (n, rest) =>
      match charsDec k rest with
      | none => none
      | some (cs, rest2) => some (Char.ofNat n :: cs, rest2)

def strEnc (s : String) : List Nat := varintEnc s.data.length ++ charsEnc s.data

def strDec (bs : List Nat) : Option (String × List Nat) :=
  match varintDec bs with
  | none => none
  | some (n, rest) =>
    match charsDec n rest with
    | none => none
    | some (cs, rest2) => some (String.mk cs, rest2)

def strsEnc (ss : List String) : List Nat := varintEnc ss.length ++ (ss.map strEnc).flatten

/-- Decode exactly `k` strings. -/
def strsDecAux : Nat → List Nat → Option (List String × List Nat)
  | 0, bs => some ([], bs)
  | k + 1, bs =>
    match strDec bs with
    | none => none
    | some (s, rest) =>
      match strsDecAux k rest with
      | none => none
      | some (ss, rest2) => some (s :: ss, rest2)

def strsDec (bs : List Nat) : Option (List String × List Nat) :=
  match varintDec bs with
  | none => none
  | some (n, rest) => strsDecAux n rest

/-- Two's-complement 64-bit integer, as a varint of its value mod 2^64
(how protobuf puts an `int64` on the wire). -/
def int64Enc (i : Int) : List Nat := varintEnc (i % (2 ^ 64 : Int)).toNat

def int64Dec (bs : List Nat) : Option (Int × List Nat) :=
  match varintDec bs with
  | none => none
  | some (n, rest) =>
    if n < 2 ^ 64 then
      some (if n < 2 ^ 63 then (n : Int) else (n : Int) - 2 ^ 64, rest)
    else none

/-- The generated `protos.Topo` message: pivot, peers, unix-seconds time. -/
structure ProtoTopo where
  Pivot : String
  Peers : List String
  Time : Int
deriving DecidableEq

def topoMarshal (p : ProtoTopo) : List Nat :=
  strEnc p.Pivot ++ strsEnc p.Peers ++ int64Enc p.Time

/-- `proto.Unmarshal` for `protos.Topo`; rejects malformed and trailing input. -/
def topoUnmarshal (bs : List Nat) : Option ProtoTopo :=
  match strDec bs with
  | none => none
  | some (piv, r1) =>
    match strsDec r1 with
    | none => none
    | some (prs, r2) =>
      match int64Dec r2 with
      | none => none
      | some (tm, r3) => if r3 = [] then some ⟨piv, prs, tm⟩ else none

/-! ## The topology snapshot (`Topo`) and its wire form -/

/-- Go `time.Time`, reduced to the parts the component touches: whole
seconds since the Unix epoch plus the sub-second nanosecond part (a
normalised Go time has `nsec < 10^9`; nothing below depends on that
bound). -/
structure GoTime where
  sec : Int
  nsec : Nat
deriving DecidableEq

/-- Go `Time.Unix()`: whole seconds since the epoch. -/
def GoTime.Unix (t : GoTime) : Int := t.sec

/-- Go `time.Unix(sec, 0)`. -/
def timeUnix (sec : Int) : GoTime := ⟨sec, 0⟩

/-- The `Topo` snapshot: this node's own url, its peers in registry
order, and the observation time. -/
structure Topo where
  Pivot : String
  Peers : List String
  Time : GoTime
deriving DecidableEq

/-- Modelled from the spec: `crypto.Hash(32, data)` (the repository's
crypto package, not among the sources at hand) — "a fixed, well-known
32-byte hash function", used purely as a deterministic content
fingerprint for deduplication. -/
def cryptoHash (n : Nat) (data : List Nat) : List Nat :=
  (List.range n).map (fun i => data.foldl (fun a b => (a * 31 + b) % 256) (i % 256))

/-- `Topo.Serialize`: marshal the snapshot with `Time` collapsed to unix
seconds (`t.Time.Unix()`), and prepend the 32-byte digest of the
marshalled payload.  `proto.Marshal` cannot fail on this message, so the
Go error branch is dead and the model is total. -/
def Topo.Serialize (t : Topo) : List Nat :=
  let data := topoMarshal ⟨t.Pivot, t.Peers, t.Time.Unix⟩
  cryptoHash 32 data ++ data

/-- `Topo.Deserialize`: unmarshal a payload and rebuild the snapshot
with `Time = time.Unix(pb.Time, 0)`.  `none` models the Go error
return. -/
def Topo.Deserialize (buf : List Nat) : Option Topo :=
  match topoUnmarshal buf with
  | none => none
  | some pb => some ⟨pb.Pivot, pb.Peers, timeUnix pb.Time⟩

/-! ## The gossip handler -/

/-- The errors `Receive` can return. -/
inductive RError where
  | invalidTopoMsg
  | duplicateTopoMsg
  | deserializeFailed
deriving DecidableEq

/-- Observable actions of one `Receive` call, in program order:
deduplication-filter lookups and inserts, the payload decode attempt,
`t.log.Error` calls, per-peer relay writes, and kafka publishes. -/
inductive REvent where
  | filterLookup : List Nat → Bool → REvent
  | decodeAttempt : Bool → REvent
  | logError : String → REvent
  | filterInsert : List Nat → REvent
  | relaySend : String → REvent
  | sinkPublish : String → REvent
deriving DecidableEq

/-- The `TopoHandler` state one step touches.  `peers` holds the
registry keys (`p.String()`) in iteration order; `prod` is whether the
kafka producer was configured (`t.prod != nil`); `record` models the
cuckoo deduplication filter as the exact set of inserted digests (the
spec's idealisation of the probabilistic filter: membership without
false negatives); `termClosed` is whether the `term` channel has been
closed; `broadcasterRunning` is whether `sendLoop`'s goroutine is still
live (`wg` counter nonzero). -/
structure TopoHandler where
  peers : List String
  prod : Bool
  record : List (List Nat)
  termClosed : Bool
  broadcasterRunning : Bool
deriving DecidableEq

/-- What one `Receive` call produced: its returned error, its event
trace in program order, and the handler state afterwards. -/
structure RResult where
  err : Option RError
  trace : List REvent
  post : TopoHandler
deriving DecidableEq

def topoCmd : Nat := 1

/-- `TopoHandler.Receive`, transcribed line by line: reject payloads
shorter than 32 bytes; slice off the 32-byte digest; drop duplicates by
filter lookup; deserialize the remainder (logging and returning on
failure); insert the digest; relay the raw message to every registered
peer whose key differs from the sender's; and, when the producer is
configured, publish the snapshot json to kafka. -/
def TopoHandler.Receive (t : TopoHandler) (payload : List Nat) (sender : String) : RResult :=
  if payload.length < 32 then
    ⟨some .invalidTopoMsg, [], t⟩
  else
    let hash := payload.take 32
    if hash ∈ t.record then
      ⟨some .duplicateTopoMsg, [.filterLookup hash true], t⟩
    else
      match topoUnmarshal (payload.drop 32) with
      | none =>
        ⟨some .deserializeFailed,
          [.filterLookup hash false, .decodeAttempt false,
            .logError "deserialize topoMsg error"], t⟩
      | some _ =>
        ⟨none,
          [.filterLookup hash false, .decodeAttempt true, .filterInsert hash]
            ++ (t.peers.filter (fun id => id != sender)).map REvent.relaySend
            ++ (if t.prod then [REvent.sinkPublish "p2p_status_event"] else []),
          { t with record := hash :: t.record }⟩

/-- What `Handle`'s loop body read from the peer. -/
inductive ReadResult where
  | failed
  | msg (cmd : Nat) (payload : List Nat)
deriving DecidableEq

inductive LoopOutcome where
  | terminated (readErr : Bool)
  | continued
deriving DecidableEq

structure StepResult where
  outcome : LoopOutcome
  post : TopoHandler
  trace : List REvent
deriving DecidableEq

/-- One iteration of `Handle`'s per-peer loop.  If `term` is closed the
select returns; a read error returns it; a non-`topoCmd` command
returns nil.  Otherwise the Go line `if t.Receive(msg, peer); err != nil`
evaluates `Receive` only for its effects and then tests the `err` bound
by `rw.ReadMsg()` — necessarily nil on this path — so `Receive`'s
returned error is discarded and the loop always continues.  `Handle`'s
deferred `t.peers.Delete(p.String())` runs exactly when the loop
returns, which the terminated branches reflect. -/
def TopoHandler.handleStep (t : TopoHandler) (sender : String) (r : ReadResult) : StepResult :=
  if t.termClosed then
    ⟨.terminated false, { t with peers := t.peers.erase sender }, []⟩
  else
    match r with
    | .failed => ⟨.terminated true, { t with peers := t.peers.erase sender }, []⟩
    | .msg cmd payload =>
      if cmd ≠ topoCmd then
        ⟨.terminated false, { t with peers := t.peers.erase sender }, []⟩
      else
        let res := t.Receive payload sender
        ⟨.continued, res.post, res.trace⟩

/-- Go runtime faults the embedded code can raise. -/
inductive GoPanic where
  | sliceOutOfRange
  | nilPointerDeref
deriving DecidableEq

/-- Observable actions of one broadcaster tick. -/
inductive TickEvent where
  | peerSend : String → List Nat → TickEvent
  | sinkWrite : String → TickEvent
deriving DecidableEq

inductive TickResult where
  | completed : List TickEvent → TickResult
  | panicked : List TickEvent → TickResult
deriving DecidableEq

/-- `TopoHandler.write`: `t.prod.Input() <- &sarama.ProducerMessage{...}`.
When no producer was configured `t.prod` is the nil interface and the
method call faults. -/
def TopoHandler.write (t : TopoHandler) (topic : String) : Except GoPanic TickEvent :=
  if t.prod then .ok (.sinkWrite topic) else .error .nilPointerDeref

/-- One timer firing of `sendLoop`: serialize the current topology,
write it to every registered peer, then call `t.write` — unconditionally,
unlike the guarded call in `Receive`. -/
def TopoHandler.sendLoopTick (t : TopoHandler) (topo : Topo) : TickResult :=
  let data := topo.Serialize
  let sends := t.peers.map (fun id => TickEvent.peerSend id data)
  match t.write "p2p_status_event" with
  | .ok ev => .completed (sends ++ [ev])
  | .error _ => .panicked sends

/-- The select at the top of each `sendLoop` iteration: the loop returns
exactly when the `term` channel is closed. -/
def sendLoopSelectExits (t : TopoHandler) : Bool := t.termClosed

/-- What a `Stop` call did to the `term` channel and the wait group. -/
inductive StopAction where
  | closeTerm
  | waitGroupWait
deriving DecidableEq

/-- `TopoHandler.Stop`: the select receives from `term` — succeeding
exactly when the channel is already closed, in which case nothing
happens — and otherwise takes the default branch: close `term`, then
`wg.Wait()`.  The wait returns only after `sendLoop` runs its deferred
`wg.Done()`, i.e. after the broadcaster goroutine has exited, which
`broadcasterRunning := false` records. -/
def TopoHandler.Stop (t : TopoHandler) : TopoHandler × List StopAction :=
  if t.termClosed then (t, [])
  else ({ t with termClosed := true, broadcasterRunning := false },
    [.closeTerm, .waitGroupWait])

/-- `TopoHandler.Start`: record the transport and launch the broadcaster. -/
def TopoHandler.Start (t : TopoHandler) : TopoHandler :=
  { t with broadcasterRunning := true }

/-! ## The block queue (`unconfirmed/model`) -/

/-- `BlockQueue`, with blocks reduced to their `Height` (the only field
`Enqueue` reads).  `items` is the visible contents of the Go slice
`q.items`. -/
structure BlockQueue where
  items : List Int
deriving DecidableEq

/-- The `for k, v := range q.items` loop of `Enqueue`.  The first list
walks the range snapshot (every read of `v` at index `k` sees the
original element: writes only ever land at the strictly smaller index
`k-1`); `cur` is the live contents of the backing array.  When
`block.Height < v.Height`: at `k = 0` the slice expression
`q.items[0:k-1]` has negative high bound and faults; at `k ≥ 1`,
`newSlice := q.items[0:k-1]` shares the backing array and has spare
capacity (`cap ≥ len(q.items) > k-1`), so `append(newSlice, block)`
writes the block into index `k-1` in place — visible through `q.items`
even though `newSlice` itself is discarded. -/
def enqueueLoop (hgt : Int) : List Int → Nat → List Int → Except GoPanic (List Int)
  | [], _, cur => .ok cur
  | v :: rest, k, cur =>
    if hgt < v then
      if k = 0 then .error .sliceOutOfRange
      else enqueueLoop hgt rest (k + 1) (cur.set (k - 1) hgt)
    else enqueueLoop hgt rest (k + 1) cur

/-- `BlockQueue.Enqueue`: run the loop; the queue's visible contents are
whatever the backing array holds afterwards (`q.items` is never
reassigned, so its length is unchanged). -/
def BlockQueue.Enqueue (q : BlockQueue) (hgt : Int) : Except GoPanic BlockQueue :=
  (enqueueLoop hgt q.items 0 q.items).map BlockQueue.mk

/-- The peers a trace relayed the message to, in send order. -/
def relayTargets (tr : List REvent) : List String :=
  tr.filterMap (fun e => match e with | .relaySend q => some q | _ => none)

/-! ## Sample inputs shared by the concrete witnesses -/

def sampleDigest : List Nat := List.replicate 32 7

def sampleProto : ProtoTopo := ⟨"p", [], 0⟩

def goodPayload : List Nat := sampleDigest ++ topoMarshal sampleProto

def badPayload : List Nat := sampleDigest ++ [200]

def sampleHandler : TopoHandler := ⟨["A", "B"], true, [], false, true⟩

def dupHandler : TopoHandler := ⟨["A", "B"], true, [sampleDigest], false, true⟩

def noSinkHandler : TopoHandler := ⟨["A"], false, [], false, true⟩

def sampleTopo : Topo := ⟨"node0", ["peerA"], ⟨1000, 500⟩⟩

/-! ## Codec round-trip lemmas -/

theorem varintDec_encAux (fuel : Nat) :
    ∀ n rest, n < fuel → varintDec (varintEncAux fuel n ++ rest) = some (n, rest) := by
  induction fuel with
  | zero => intro n rest h; omega
  | succ m ih =>
    intro n rest h
    by_cases h128 : n < 128
    · simp [varintEncAux, h128, varintDec]
    · have hdiv : n / 128 < n := Nat.div_lt_self (by omega) (by omega)
      have hm : n / 128 < m := by omega
      have hb : ¬ (n % 128 + 128 < 128) := by omega
      simp only [varintEncAux, if_neg h128, List.cons_append, varintDec, if_neg hb,
        ih (n / 128) rest hm]
      have harith : n / 128 * 128 + (n % 128 + 128 - 128) = n := by omega
      rw [harith]

theorem varintDec_enc (n : Nat) (rest : List Nat) :
    varintDec (varintEnc n ++ rest) = some (n, rest) :=
  varintDec_encAux (n + 1) n rest (Nat.lt_succ_self n)

theorem charsDec_enc (cs : List Char) (rest : List Nat) :
    charsDec cs.length (charsEnc cs ++ rest) = some (cs, rest) := by
  induction cs with
  | nil => simp [charsEnc, charsDec]
  | cons c cs ih =>
    simp only [charsEnc] at ih
    simp only [charsEnc, List.map_cons, List.flatten_cons, List.append_assoc, List.length_cons,
      charsDec, varintDec_enc, ih, Char.ofNat_toNat]

theorem strDec_enc (s : String) (rest : List Nat) :
    strDec (strEnc s ++ rest) = some (s, rest) := by
  simp only [strEnc, List.append_assoc, strDec, varintDec_enc, charsDec_enc]

theorem strsDecAux_enc (ss : List String) (rest : List Nat) :
    strsDecAux ss.length ((ss.map strEnc).flatten ++ rest) = some (ss, rest) := by
  induction ss with
  | nil => simp [strsDecAux]
  | cons s ss ih =>
    simp only [List.map_cons, List.flatten_cons, List.append_assoc, List.length_cons,
      strsDecAux, strDec_enc, ih]

theorem strsDec_enc (ss : List String) (rest : List Nat) :
    strsDec (strsEnc ss ++ rest) = some (ss, rest) := by
  simp only [strsEnc, strsDec, List.append_assoc, varintDec_enc, strsDecAux_enc]

theorem int64Dec_enc (i : Int) (rest : List Nat)
    (h1 : -(2 ^ 63) ≤ i) (h2 : i < 2 ^ 63) :
    int64Dec (int64Enc i ++ rest) = some (i, rest) := by
  have e64 : (2 : Int) ^ 64 = 18446744073709551616 := by norm_num
  have e63 : (2 : Int) ^ 63 = 9223372036854775808 := by norm_num
  have e64n : (2 : Nat) ^ 64 = 18446744073709551616 := by norm_num
  have e63n : (2 : Nat) ^ 63 = 9223372036854775808 := by norm_num
  rw [e63] at h1 h2
  have hm0 : 0 ≤ i % (18446744073709551616 : Int) := Int.emod_nonneg i (by norm_num)
  have hm1 : i % (18446744073709551616 : Int) < 18446744073709551616 :=
    Int.emod_lt_of_pos i (by norm_num)
  simp only [int64Enc, int64Dec, varintDec_enc, e64, e63, e64n, e63n]
  have hcast : (((i % (18446744073709551616 : Int)).toNat : Int)) =
      i % 18446744073709551616 := Int.toNat_of_nonneg hm0
  split_ifs with ha hb
  · simp only [Option.some.injEq, Prod.mk.injEq, and_true]
    omega
  · simp only [Option.some.injEq, Prod.mk.injEq, and_true]
    omega
  · exfalso; omega

theorem topoUnmarshal_marshal (p : ProtoTopo)
    (h1 : -(2 ^ 63) ≤ p.Time) (h2 : p.Time < 2 ^ 63) :
    topoUnmarshal (topoMarshal p) = some p := by
  have hshape : topoMarshal p
      = strEnc p.Pivot ++ (strsEnc p.Peers ++ (int64Enc p.Time ++ [])) := by
    simp [topoMarshal]
  rw [hshape]
  simp only [topoUnmarshal, strDec_enc, strsDec_enc, int64Dec_enc p.Time [] h1 h2,
    if_pos rfl]
  rfl

/-! ## Branch equations for `Receive` -/

theorem Receive_short (t : TopoHandler) (payload : List Nat) (sender : String)
    (h : payload.length < 32) :
    t.Receive payload sender = ⟨some .invalidTopoMsg, [], t⟩ := by
  simp [TopoHandler.Receive, h]

theorem Receive_dup (t : TopoHandler) (payload : List Nat) (sender : String)
    (h1 : ¬ payload.length < 32) (h2 : payload.take 32 ∈ t.record) :
    t.Receive payload sender
      = ⟨some .duplicateTopoMsg, [.filterLookup (payload.take 32) true], t⟩ := by
  simp [TopoHandler.Receive, h1, h2]

theorem Receive_badDecode (t : TopoHandler) (payload : List Nat) (sender : String)
    (h1 : ¬ payload.length < 32) (h2 : payload.take 32 ∉ t.record)
    (h3 : topoUnmarshal (payload.drop 32) = none) :
    t.Receive payload sender
      = ⟨some .deserializeFailed,
          [.filterLookup (payload.take 32) false, .decodeAttempt false,
            .logError "deserialize topoMsg error"], t⟩ := by
  simp [TopoHandler.Receive, h1, h2, h3]

theorem Receive_ok (t : TopoHandler) (payload : List Nat) (sender : String) (pb : ProtoTopo)
    (h1 : ¬ payload.length < 32) (h2 : payload.take 32 ∉ t.record)
    (h3 : topoUnmarshal (payload.drop 32) = some pb) :
    t.Receive payload sender
      = ⟨none,
          [.filterLookup (payload.take 32) false, .decodeAttempt true,
            .filterInsert (payload.take 32)]
            ++ (t.peers.filter (fun id => id != sender)).map REvent.relaySend
            ++ (if t.prod then [REvent.sinkPublish "p2p_status_event"] else []),
          { t with record := payload.take 32 :: t.record }⟩ := by
  simp [TopoHandler.Receive, h1, h2, h3]

/-! ## `relayTargets` computation lemmas -/

@[simp] theorem relayTargets_nil : relayTargets [] = [] := rfl

@[simp] theorem relayTargets_append (a b : List REvent) :
    relayTargets (a ++ b) = relayTargets a ++ relayTargets b :=
  List.filterMap_append a b _

@[simp] theorem relayTargets_cons_lookup (d : List Nat) (r : Bool) (tr : List REvent) :
    relayTargets (.filterLookup d r :: tr) = relayTargets tr := rfl

@[simp] theorem relayTargets_cons_decode (r : Bool) (tr : List REvent) :
    relayTargets (.decodeAttempt r :: tr) = relayTargets tr := rfl

@[simp] theorem relayTargets_cons_log (s : String) (tr : List REvent) :
    relayTargets (.logError s :: tr) = relayTargets tr := rfl

@[simp] theorem relayTargets_cons_insert (d : List Nat) (tr : List REvent) :
    relayTargets (.filterInsert d :: tr) = relayTargets tr := rfl

@[simp] theorem relayTargets_cons_relay (q : String) (tr : List REvent) :
    relayTargets (.relaySend q :: tr) = q :: relayTargets tr := rfl

@[simp] theorem relayTargets_cons_sink (s : String) (tr : List REvent) :
    relayTargets (.sinkPublish s :: tr) = relayTargets tr := rfl

@[simp] theorem relayTargets_map_relay (l : List String) :
    relayTargets (l.map REvent.relaySend) = l := by
  induction l with
  | nil => rfl
  | cons a l ih => simp [ih]

/-! ## Claim C1: serialize/deserialize round trip -/

theorem cryptoHash_length (n : Nat) (data : List Nat) : (cryptoHash n data).length = n := by
  simp [cryptoHash]

theorem serialize_drop (t : Topo) :
    (t.Serialize).drop 32 = topoMarshal ⟨t.Pivot, t.Peers, t.Time.Unix⟩ := by
  simp only [Topo.Serialize]
  exact List.drop_left' (cryptoHash_length 32 _)

/-- Claim C1: deserializing the payload portion of `Serialize(s)` — the
bytes after the 32-byte digest — yields a snapshot with `Pivot` and
`Peers` equal to those of `s` and `Time` equal to `s`'s time truncated
to whole seconds.  The hypotheses say the unix-seconds value fits in an
`int64`, which Go's `Time.Unix()` guarantees by type. -/
theorem topo_serialize_roundtrip (t : Topo)
    (h1 : -(2 ^ 63) ≤ t.Time.sec) (h2 : t.Time.sec < 2 ^ 63) :
    Topo.Deserialize ((t.Serialize).drop 32)
      = some ⟨t.Pivot, t.Peers, ⟨t.Time.sec, 0⟩⟩ := by
  rw [serialize_drop]
  simp only [Topo.Deserialize,
    topoUnmarshal_marshal ⟨t.Pivot, t.Peers, t.Time.Unix⟩ h1 h2]
  rfl

/-- Witness for C1 at a concrete snapshot with a nonzero sub-second part. -/
theorem topo_serialize_roundtrip_witness :
    Topo.Deserialize ((Topo.Serialize ⟨"node0", ["peerA"], ⟨1000, 500⟩⟩).drop 32)
      = some ⟨"node0", ["peerA"], ⟨1000, 0⟩⟩ :=
  topo_serialize_roundtrip ⟨"node0", ["peerA"], ⟨1000, 500⟩⟩ (by norm_num) (by norm_num)

/-! ## Claim C2: dedup-insert happens before relay-forward -/

/-- Claim C2: in any `Receive` call, every relay send in the trace is
preceded by the insertion of the message's 32-byte digest into the
deduplication filter. -/
theorem receive_insert_before_relay (t : TopoHandler) (payload : List Nat)
    (sender p : String) (i : Nat)
    (h : ((t.Receive payload sender).trace)[i]? = some (.relaySend p)) :
    ∃ j, j < i ∧ ((t.Receive payload sender).trace)[j]?
      = some (.filterInsert (payload.take 32)) := by
  by_cases h1 : payload.length < 32
  · rw [Receive_short t payload sender h1] at h
    simp at h
  · by_cases h2 : payload.take 32 ∈ t.record
    · rw [Receive_dup t payload sender h1 h2] at h
      cases i with
      | zero => simp at h
      | succ n => simp at h
    · cases h3 : topoUnmarshal (payload.drop 32) with
      | none =>
        rw [Receive_badDecode t payload sender h1 h2 h3] at h
        cases i with
        | zero => simp at h
        | succ i1 =>
          cases i1 with
          | zero => simp at h
          | succ i2 =>
            cases i2 with
            | zero => simp at h
            | succ i3 => simp at h
      | some pb =>
        rw [Receive_ok t payload sender pb h1 h2 h3] at h
        cases i with
        | zero => simp at h
        | succ i1 =>
          cases i1 with
          | zero => simp at h
          | succ i2 =>
            cases i2 with
            | zero => simp at h
            | succ i3 =>
              refine ⟨2, by omega, ?_⟩
              rw [Receive_ok t payload sender pb h1 h2 h3]
              simp

/-- Witness for C2: the send to peer B at trace index 3 is preceded by
the digest insert. -/
theorem receive_insert_before_relay_witness :
    ∃ j, j < 3 ∧ ((sampleHandler.Receive goodPayload "A").trace)[j]?
      = some (.filterInsert (goodPayload.take 32)) :=
  receive_insert_before_relay sampleHandler goodPayload "A" "B" 3 (by decide)

/-! ## Claim C3: relay reaches every peer but the sender -/

/-- Claim C3: an accepted message is relayed exactly to the registered
peers whose key differs from the sender's, and never back to the
sender. -/
theorem receive_relays_all_except_sender (t : TopoHandler) (payload : List Nat)
    (sender : String)
    (h : (t.Receive payload sender).err = none) :
    relayTargets (t.Receive payload sender).trace
        = t.peers.filter (fun id => id != sender)
      ∧ sender ∉ relayTargets (t.Receive payload sender).trace := by
  by_cases h1 : payload.length < 32
  · rw [Receive_short t payload sender h1] at h; simp at h
  · by_cases h2 : payload.take 32 ∈ t.record
    · rw [Receive_dup t payload sender h1 h2] at h; simp at h
    · cases h3 : topoUnmarshal (payload.drop 32) with
      | none => rw [Receive_badDecode t payload sender h1 h2 h3] at h; simp at h
      | some pb =>
        rw [Receive_ok t payload sender pb h1 h2 h3]
        constructor
        · by_cases hp : t.prod <;> simp [hp]
        · by_cases hp : t.prod <;> simp [hp, List.mem_filter]

/-- Witness for C3 at a concrete accepted message. -/
theorem receive_relays_all_except_sender_witness :
    relayTargets (sampleHandler.Receive goodPayload "A").trace
        = sampleHandler.peers.filter (fun id => id != "A")
      ∧ "A" ∉ relayTargets (sampleHandler.Receive goodPayload "A").trace :=
  receive_relays_all_except_sender sampleHandler goodPayload "A" (by decide)

/-! ## Claim C4: undersized payloads are rejected before any work -/

/-- Claim C4: a payload shorter than 32 bytes is rejected as malformed
with an empty trace — no digest extraction, no filter lookup or insert,
no decode, no relay, no sink publish — and the state is unchanged. -/
theorem receive_short_rejected (t : TopoHandler) (payload : List Nat) (sender : String)
    (h : payload.length < 32) :
    (t.Receive payload sender).err = some .invalidTopoMsg
      ∧ (t.Receive payload sender).trace = []
      ∧ (t.Receive payload sender).post = t := by
  rw [Receive_short t payload sender h]
  exact ⟨rfl, rfl, rfl⟩

/-- Witness for C4 at a 10-byte payload. -/
theorem receive_short_rejected_witness :
    (sampleHandler.Receive (List.replicate 10 0) "A").err = some .invalidTopoMsg
      ∧ (sampleHandler.Receive (List.replicate 10 0) "A").trace = []
      ∧ (sampleHandler.Receive (List.replicate 10 0) "A").post = sampleHandler :=
  receive_short_rejected sampleHandler (List.replicate 10 0) "A" (by decide)

/-! ## Claim C5: duplicate handling -/

/-- Counterexample to C5 as stated: `Receive` does report an error for a
duplicate — it returns the non-nil "has received the same topoMsg"
error, not nil. -/
theorem receive_duplicate_returns_error :
    (dupHandler.Receive (sampleDigest ++ [1, 2, 3]) "A").err
      = some .duplicateTopoMsg := by
  decide

/-- Claim C5 (amended): a duplicate is dropped — no relay to any peer,
no sink publish, filter and state unchanged — and the connection-level
handling is silent because `Handle` discards `Receive`'s return value
(its `if t.Receive(msg, peer); err != nil` tests the nil error bound by
`ReadMsg`), so the loop continues; but `Receive` itself returns the
duplicate error rather than reporting no error. -/
theorem receive_duplicate_dropped (t : TopoHandler) (payload : List Nat) (sender : String)
    (h1 : ¬ payload.length < 32) (h2 : payload.take 32 ∈ t.record)
    (h3 : t.termClosed = false) :
    (t.Receive payload sender).err = some .duplicateTopoMsg
      ∧ relayTargets (t.Receive payload sender).trace = []
      ∧ (∀ s, REvent.sinkPublish s ∉ (t.Receive payload sender).trace)
      ∧ (t.Receive payload sender).post = t
      ∧ (t.handleStep sender (.msg topoCmd payload)).outcome = .continued := by
  rw [Receive_dup t payload sender h1 h2]
  refine ⟨rfl, rfl, ?_, rfl, ?_⟩
  · intro s
    simp
  · simp [TopoHandler.handleStep, h3]

/-- Witness for C5's amended statement at a concrete duplicate. -/
theorem receive_duplicate_dropped_witness :
    (dupHandler.Receive (sampleDigest ++ [1, 2, 3]) "B").err = some .duplicateTopoMsg
      ∧ relayTargets (dupHandler.Receive (sampleDigest ++ [1, 2, 3]) "B").trace = []
      ∧ (∀ s, REvent.sinkPublish s ∉ (dupHandler.Receive (sampleDigest ++ [1, 2, 3]) "B").trace)
      ∧ (dupHandler.Receive (sampleDigest ++ [1, 2, 3]) "B").post = dupHandler
      ∧ (dupHandler.handleStep "B" (.msg topoCmd (sampleDigest ++ [1, 2, 3]))).outcome
          = .continued :=
  receive_duplicate_dropped dupHandler (sampleDigest ++ [1, 2, 3]) "B"
    (by decide) (by decide) rfl

/-! ## Claim C8: decode failure does not terminate the connection -/

/-- Claim C8: on a well-formed envelope (command `topoCmd`, length at
least 32, novel digest) whose payload fails to deserialize, the loop
body logs the failure and continues: the peer stays registered and the
handler state is unchanged. -/
theorem handle_decode_failure_continues (t : TopoHandler) (sender : String)
    (payload : List Nat)
    (hterm : t.termClosed = false)
    (h1 : ¬ payload.length < 32)
    (h2 : payload.take 32 ∉ t.record)
    (h3 : topoUnmarshal (payload.drop 32) = none) :
    (t.handleStep sender (.msg topoCmd payload)).outcome = .continued
      ∧ (t.handleStep sender (.msg topoCmd payload)).post = t
      ∧ REvent.logError "deserialize topoMsg error"
          ∈ (t.handleStep sender (.msg topoCmd payload)).trace := by
  have hrec := Receive_badDecode t payload sender h1 h2 h3
  simp [TopoHandler.handleStep, hterm, hrec]

/-- Witness for C8 at a payload whose body is a lone continuation byte. -/
theorem handle_decode_failure_continues_witness :
    (sampleHandler.handleStep "A" (.msg topoCmd badPayload)).outcome = .continued
      ∧ (sampleHandler.handleStep "A" (.msg topoCmd badPayload)).post = sampleHandler
      ∧ REvent.logError "deserialize topoMsg error"
          ∈ (sampleHandler.handleStep "A" (.msg topoCmd badPayload)).trace :=
  handle_decode_failure_continues sampleHandler "A" badPayload rfl
    (by decide) (by decide) (by decide)

/-! ## Claim C10: decode failure is atomic for the filter -/

/-- Claim C10: when the payload fails to deserialize the filter is left
unchanged (the digest is inserted only after a successful decode), so a
later arrival with the same digest and a well-formed payload is treated
as novel: accepted and relayed to every other peer. -/
theorem receive_decode_failure_atomic (t : TopoHandler)
    (payload payload2 : List Nat) (sender sender2 : String)
    (h1 : ¬ payload.length < 32) (h2 : payload.take 32 ∉ t.record)
    (h3 : topoUnmarshal (payload.drop 32) = none)
    (h4 : ¬ payload2.length < 32)
    (h5 : payload2.take 32 = payload.take 32)
    (h6 : (topoUnmarshal (payload2.drop 32)).isSome = true) :
    (t.Receive payload sender).post = t
      ∧ ((t.Receive payload sender).post.Receive payload2 sender2).err = none
      ∧ relayTargets ((t.Receive payload sender).post.Receive payload2 sender2).trace
          = t.peers.filter (fun id => id != sender2) := by
  have hpost : (t.Receive payload sender).post = t := by
    rw [Receive_badDecode t payload sender h1 h2 h3]
  obtain ⟨pb, hpb⟩ := Option.isSome_iff_exists.mp h6
  have h2' : payload2.take 32 ∉ t.record := by rw [h5]; exact h2
  rw [hpost, Receive_ok t payload2 sender2 pb h4 h2' hpb]
  refine ⟨rfl, rfl, ?_⟩
  by_cases hp : t.prod <;> simp [hp]

/-- Witness for C10: the bad and the good payload share the digest. -/
theorem receive_decode_failure_atomic_witness :
    (sampleHandler.Receive badPayload "A").post = sampleHandler
      ∧ ((sampleHandler.Receive badPayload "A").post.Receive goodPayload "B").err = none
      ∧ relayTargets ((sampleHandler.Receive badPayload "A").post.Receive goodPayload "B").trace
          = sampleHandler.peers.filter (fun id => id != "B") :=
  receive_decode_failure_atomic sampleHandler badPayload goodPayload "A" "B"
    (by decide) (by decide) (by decide) (by decide) (by decide) (by decide)

/-! ## Claim C6: broadcaster tick with no sink configured -/

/-- Claim C6 is contradicted by the code: with no producer configured
(`t.prod == nil`), a broadcaster tick completes its per-peer sends but
then reaches the unconditional `t.write(...)`, whose
`t.prod.Input()` dereferences the nil producer interface and faults —
the sink-forward step is not a no-op.  (`Receive` guards the same call
with `if t.prod != nil`, which is what the spec describes.) -/
theorem sendLoopTick_faults_without_sink (t : TopoHandler) (topo : Topo)
    (h : t.prod = false) :
    t.sendLoopTick topo
      = .panicked (t.peers.map (fun id => TickEvent.peerSend id topo.Serialize)) := by
  simp [TopoHandler.sendLoopTick, TopoHandler.write, h]

/-- Witness for C6's theorem at a concrete sink-less handler. -/
theorem sendLoopTick_faults_without_sink_witness :
    noSinkHandler.sendLoopTick sampleTopo
      = .panicked (noSinkHandler.peers.map
          (fun id => TickEvent.peerSend id sampleTopo.Serialize)) :=
  sendLoopTick_faults_without_sink noSinkHandler sampleTopo rfl

/-! ## Claim C7: Stop is synchronous and idempotent -/

/-- Claim C7: stopping an engine whose `term` channel is still open
closes `term` and then waits for the broadcaster, which exits (its
select sees the closed channel); a second `Stop` performs no action —
no close, no wait — and leaves the state unchanged. -/
theorem stop_then_stop_noop (t : TopoHandler) (h : t.termClosed = false) :
    (t.Stop).2 = [.closeTerm, .waitGroupWait]
      ∧ (t.Stop).1.termClosed = true
      ∧ (t.Stop).1.broadcasterRunning = false
      ∧ sendLoopSelectExits (t.Stop).1 = true
      ∧ (t.Stop).1.Stop = ((t.Stop).1, []) := by
  simp [TopoHandler.Stop, h, sendLoopSelectExits]

/-- Witness for C7 on a started engine. -/
theorem stop_then_stop_noop_witness :
    (sampleHandler.Stop).2 = [.closeTerm, .waitGroupWait]
      ∧ (sampleHandler.Stop).1.termClosed = true
      ∧ (sampleHandler.Stop).1.broadcasterRunning = false
      ∧ sendLoopSelectExits (sampleHandler.Stop).1 = true
      ∧ (sampleHandler.Stop).1.Stop = ((sampleHandler.Stop).1, []) :=
  stop_then_stop_noop sampleHandler rfl

/-! ## Claim C9: the block queue's sorted insert -/

theorem enqueueLoop_ok_length (hgt : Int) :
    ∀ (snap : List Int) (k : Nat) (cur res : List Int),
      enqueueLoop hgt snap k cur = .ok res → res.length = cur.length := by
  intro snap
  induction snap with
  | nil =>
    intro k cur res h
    simp only [enqueueLoop, Except.ok.injEq] at h
    rw [← h]
  | cons v rest ih =>
    intro k cur res h
    simp only [enqueueLoop] at h
    split at h
    · split at h
      · simp at h
      · have := ih (k + 1) (cur.set (k - 1) hgt) res h
        simpa using this
    · exact ih (k + 1) cur res h

/-- Counterexample to C9's "q.items is unchanged after every
non-panicking call": `append` writes through the aliased backing array,
so enqueueing height 2 into `[1, 3]` overwrites the element at index 0 —
the call does not panic, yet the queue's contents change (and the block
is still not inserted as a new element). -/
theorem enqueue_clobbers_in_place :
    (BlockQueue.mk [1, 3]).Enqueue 2 = .ok (BlockQueue.mk [2, 3])
      ∧ BlockQueue.mk [2, 3] ≠ BlockQueue.mk [1, 3] :=
  ⟨rfl, by decide⟩

/-- Claim C9 (amended): for a block sorting strictly before the first
element the loop faults at `k = 0` (the slice bound `k-1` underflows);
`newSlice` is never assigned back, so no non-panicking call ever changes
the queue's length — nothing is ever inserted; but when the branch fires
at `k ≥ 1` the aliased `append` overwrites `q.items[k-1]` in place, so
the visible contents can change (here `[1,3]` becomes `[2,3]`). -/
theorem enqueue_defective :
    (∀ (v hgt : Int) (rest : List Int), hgt < v →
        (BlockQueue.mk (v :: rest)).Enqueue hgt = .error .sliceOutOfRange)
      ∧ (∀ (q : BlockQueue) (hgt : Int) (res : BlockQueue),
          q.Enqueue hgt = .ok res → res.items.length = q.items.length)
      ∧ (BlockQueue.mk [1, 3]).Enqueue 2 = .ok (BlockQueue.mk [2, 3]) := by
  refine ⟨?_, ?_, rfl⟩
  · intro v hgt rest hv
    simp [BlockQueue.Enqueue, enqueueLoop, hv, Except.map]
  · intro q hgt res h
    cases hq : enqueueLoop hgt q.items 0 q.items with
    | error e => simp [BlockQueue.Enqueue, hq, Except.map] at h
    | ok l =>
      have hlen := enqueueLoop_ok_length hgt q.items 0 q.items l hq
      simp [BlockQueue.Enqueue, hq, Except.map] at h
      rw [← h]
      exact hlen

/-- Witness for C9's amended statement. -/
theorem enqueue_defective_witness :
    (BlockQueue.mk [5]).Enqueue 3 = .error .sliceOutOfRange
      ∧ (BlockQueue.mk [1, 3]).Enqueue 2 = .ok (BlockQueue.mk [2, 3]) :=
  ⟨enqueue_defective.1 5 3 [] (by norm_num), enqueue_defective.2.2⟩
